import Mathlib

/-!
Verification of the lakehouse-functions dashboard core logic.

Two subsystems are embedded from the front-end source:

* `CatalogFormatter` — the pure presentation helpers of the function list
  component: `getBadgeClass` (trigger badge classification) and
  `formatCronSchedule` (humanizing cron-like schedule strings).
* `WebSocketService` — the live-feed connection manager: the `connect`
  guard, the reconnect-on-close timer, message dispatch to registered
  handlers, and the disposer returned by `onMessage`.

Strings are modelled at the character-list level so that every definition
is structural and kernel-evaluable: the JavaScript operations split on a
space, startsWith of "*/", substring from index 2, the all-digits regex
test, parseInt, padStart to width two with "0", and number-to-string
interpolation each get a faithful char-level counterpart.
-/

namespace Lakehouse

/-! ### Char-level models of the JavaScript string primitives -/

/-- Model of JavaScript split on a single space: split on every space
character, preserving empty fields (so `"a  b"` gives three fields and
`""` gives one empty field), exactly as `String.prototype.split` with a
single-character separator would. -/
def splitFields : List Char → List String
  | [] => [""]
  | c :: rest =>
    match splitFields rest with
    | [] => [""]
    | f :: fs => if c = ' ' then "" :: f :: fs else ⟨c :: f.data⟩ :: fs

/-- Model of JavaScript startsWith applied to "*/": the first two
characters are the star and the slash. -/
def startsWithInterval (s : String) : Bool :=
  match s.data with
  | c1 :: c2 :: _ => c1 = '*' && c2 = '/'
  | _ => false

/-- Model of JavaScript `s.substring(2)`: drop the first two characters. -/
def intervalSuffix (s : String) : String :=
  ⟨s.data.drop 2⟩

/-- Model of the JavaScript all-digits regex test being non-null: the
string is non-empty and every character is a decimal digit. -/
def isNumeric (s : String) : Bool :=
  !s.data.isEmpty && s.data.all Char.isDigit

/-- Model of JavaScript `parseInt` on an all-digit decimal string. -/
def parseIntNat (s : String) : Nat :=
  s.data.foldl (fun a c => a * 10 + (c.toNat - 48)) 0

/-- Model of JavaScript padStart to width two with "0": left-pad with a
zero up to length two; strings already of length two or more are
unchanged. -/
def padStart2 (s : String) : String :=
  if s.length ≥ 2 then s
  else if s.length = 1 then "0" ++ s
  else "00"

/-- Digit characters of `n` in base ten, most significant first; `fuel`
bounds the recursion depth so the definition is structural. -/
def natDigitsAux : Nat → Nat → List Char
  | 0, _ => []
  | fuel + 1, n =>
    if n < 10 then [Char.ofNat (48 + n)]
    else natDigitsAux fuel (n / 10) ++ [Char.ofNat (48 + n % 10)]

/-- Model of JavaScript number-to-string interpolation for a natural
number: the usual decimal rendering without leading zeros. -/
def natToStr (n : Nat) : String :=
  ⟨natDigitsAux (n + 1) n⟩

/-! ### CatalogFormatter, embedded from the function-list component -/

/-- The property names every plain object literal inherits from the
base object prototype; a bracket lookup of any of them on `classes`
yields a truthy inherited value (a function, or for "__proto__" the
prototype object itself), never undefined. -/
def objectProtoKeys : List String :=
  ["constructor", "hasOwnProperty", "isPrototypeOf", "propertyIsEnumerable",
   "toLocaleString", "toString", "valueOf", "__proto__",
   "__defineGetter__", "__defineSetter__", "__lookupGetter__", "__lookupSetter__"]

/-- A JavaScript value as far as `getBadgeClass` can produce one: a badge
class string, or a truthy member inherited from the base object
prototype, identified by its property name. -/
inductive BadgeValue
  | str (s : String)
  | protoMember (name : String)
  deriving DecidableEq, Repr

/-- Embedding of `getBadgeClass`: the bracket lookup
`classes[triggerType]` finds an own property for the three known tags and
otherwise walks the prototype chain — for a base-prototype property name
it yields the truthy inherited member, which the fallback in
`classes[triggerType] || "bg-secondary"` then keeps; for every other tag
the lookup is undefined (falsy) and the fallback produces the default
badge. -/
def getBadgeClass (triggerType : String) : BadgeValue :=
  if triggerType = "timer" then .str "bg-primary"
  else if triggerType = "http" then .str "bg-success"
  else if triggerType = "unity_table" then .str "bg-warning text-dark"
  else if triggerType ∈ objectProtoKeys then .protoMember triggerType
  else .str "bg-secondary"

/-- The fixed exact-match table of `formatCronSchedule`: true exactly on
the seven expressions handled by the fast path. -/
def inExactTable (e : String) : Bool :=
  e = "*/1 * * * *" || e = "0/5 * * * *" || e = "0/15 * * * *" ||
  e = "0/30 * * * *" || e = "0 * * * *" || e = "0 0 * * *" ||
  e = "0 12 * * *"

/-- The custom-pattern section of `formatCronSchedule` (everything after
the exact-match fast path): split into five fields, apply the interval
rule, then the specific-time rule, else return the expression unchanged. -/
def formatCustom (cronExpression : String) : String :=
  match splitFields cronExpression.data with
  | [minute, hour, _dayOfMonth, _month, _dayOfWeek] =>
    if startsWithInterval minute then
      let interval := intervalSuffix minute
      "Every " ++ interval ++ " minute" ++ (if interval = "1" then "" else "s")
    else if isNumeric minute && isNumeric hour then
      let formattedHour := if parseIntNat hour % 12 = 0 then 12 else parseIntNat hour % 12
      let ampm := if parseIntNat hour ≥ 12 then "PM" else "AM"
      let formattedMinute := padStart2 minute
      "Every day at " ++ natToStr formattedHour ++ ":" ++ formattedMinute ++ " " ++ ampm
    else cronExpression
  | _ => cronExpression

/-- Embedding of `formatCronSchedule` from the function-list component:
exact-match table first, then split on spaces, then the interval rule,
then the numeric minute/hour 12-hour-clock rule, else passthrough. -/
def formatCronSchedule (cronExpression : String) : String :=
  if cronExpression = "*/1 * * * *" then "Every minute"
  else if cronExpression = "0/5 * * * *" then "Every 5 minutes"
  else if cronExpression = "0/15 * * * *" then "Every 15 minutes"
  else if cronExpression = "0/30 * * * *" then "Every 30 minutes"
  else if cronExpression = "0 * * * *" then "Every hour"
  else if cronExpression = "0 0 * * *" then "Every day at midnight"
  else if cronExpression = "0 12 * * *" then "Every day at noon"
  else formatCustom cronExpression

example : formatCronSchedule "*/7 * * * *" = "Every 7 minutes" := by decide
example : formatCronSchedule "30 14 * * *" = "Every day at 2:30 PM" := by decide
example : formatCronSchedule "not a cron" = "not a cron" := by decide
example : formatCronSchedule "*/1 * * * *" = "Every minute" := by decide
example : formatCronSchedule "*/1 0 * * *" = "Every 1 minute" := by decide
example : formatCronSchedule "*/x * * * *" = "Every x minutes" := by decide
example : formatCronSchedule "*/01 * * * *" = "Every 01 minutes" := by decide
example : formatCronSchedule "0 0 * * 1" = "Every day at 12:00 AM" := by decide
example : formatCronSchedule "5 9 * * *" = "Every day at 9:05 AM" := by decide

/-! ### WebSocketService: message dispatch and handler registration

Handlers are identified by opaque numeric ids (JavaScript compares them by
function identity). `beh h m = true` means handler `h` returns normally on
payload `m`; `beh h m = false` means it throws. The `onmessage` callback
runs `this.messageHandlers.forEach(handler => handler(event.data))`: each
handler is invoked in registration order, and a thrown exception
propagates out of `forEach`, so the handlers after the throwing one are
not invoked for that payload. -/

/-- One `forEach` dispatch of payload `m` over the handler list: returns
the handlers actually invoked (in order) and whether the loop ran to
completion without an exception. -/
def dispatchRun (beh : Nat → String → Bool) : List Nat → String → List Nat × Bool
  | [], _ => ([], true)
  | h :: rest, m =>
    if beh h m then
      let r := dispatchRun beh rest m
      (h :: r.1, r.2)
    else ([h], false)

/-- The invocation trace of a run of the feed: payloads arrive in `msgs`
order, and each payload is dispatched over the handler list by
`dispatchRun`; the trace records `(handler, payload)` invocations in the
order they happen. -/
def dispatchTrace (beh : Nat → String → Bool) (handlers : List Nat)
    (msgs : List String) : List (Nat × String) :=
  (msgs.map (fun m => ((dispatchRun beh handlers m).1).map (fun h => (h, m)))).flatten

/-- The payloads delivered to handler `h`, in order, as recorded by a
trace. -/
def receivedBy (h : Nat) (tr : List (Nat × String)) : List String :=
  tr.filterMap (fun p => if p.1 = h then some p.2 else none)

/-- Embedding of the disposer returned by `onMessage`:
`this.messageHandlers = this.messageHandlers.filter(h => h !== handler)`. -/
def removeHandler (handlers : List Nat) (handler : Nat) : List Nat :=
  handlers.filter (fun h => h ≠ handler)

/-! ### WebSocketService: connection lifecycle state machine

The service owns `this.ws` (the current transport handle or null) and the
`isConnecting` flag. Transports are recorded in creation order, each with
its current readyState, so that the one-live-transport invariant can be
stated over every transport ever created. Scheduled
`setTimeout(() => this.connect(), 5000)` callbacks are recorded as a list
of pending delays. Transport events (open, error, close) are environment
moves, constrained exactly as a browser WebSocket fires them: open only
from CONNECTING; error from CONNECTING or OPEN; close on any transition
to CLOSED. Each event runs the corresponding handler the service
installed at creation time. -/

/-- Browser WebSocket readyState values. -/
inductive ReadyState
  | CONNECTING
  | OPEN
  | CLOSING
  | CLOSED
  deriving DecidableEq, Repr

/-- The mutable state of the singleton `WebSocketService`, plus the
history of transports it created and the pending reconnect timers. -/
structure WebSocketService where
  transports : List ReadyState
  ws : Option Nat
  isConnecting : Bool
  pendingReconnects : List Nat
  deriving DecidableEq, Repr

/-- The state at module load: `this.ws = null`,
`this.isConnecting = false`, no transports, no timers. -/
def initService : WebSocketService :=
  { transports := [], ws := none, isConnecting := false, pendingReconnects := [] }

/-- Model of the JavaScript optional-chaining read `this.ws?.readyState`:
`none` when no transport handle is held. -/
def readyStateOf (s : WebSocketService) : Option ReadyState :=
  s.ws.bind (fun i => s.transports[i]?)

/-- The guard at the top of `connect()`: readyState OPEN, readyState
CONNECTING, or the `isConnecting` flag. -/
def connectGuard (s : WebSocketService) : Bool :=
  readyStateOf s == some .OPEN || readyStateOf s == some .CONNECTING || s.isConnecting

/-- Embedding of `connect()`: if the guard holds, return with no effect;
otherwise set `isConnecting`, create a fresh transport in CONNECTING
state and store it in `this.ws`. -/
def connect (s : WebSocketService) : WebSocketService :=
  if connectGuard s then s
  else
    { s with
      isConnecting := true
      transports := s.transports ++ [.CONNECTING]
      ws := some s.transports.length }

/-- Effect of WebSocket `close()` on a transport handle: CONNECTING and
OPEN move to CLOSING; CLOSING and CLOSED are unaffected. -/
def closeHandle : ReadyState → ReadyState
  | .CONNECTING => .CLOSING
  | .OPEN => .CLOSING
  | r => r

/-- Embedding of `disconnect()`: `if (this.ws) { this.ws.close() }`. -/
def disconnect (s : WebSocketService) : WebSocketService :=
  match s.ws with
  | none => s
  | some i =>
    { s with transports := s.transports.set i (closeHandle ((s.transports[i]?).getD .CLOSED)) }

/-- The events that drive the service: the two public calls, the three
transport callbacks (tagged by the transport they fire on), and the
expiry of a scheduled reconnect timer. -/
inductive Event
  | callConnect
  | callDisconnect
  | transportOpen (i : Nat)
  | transportError (i : Nat)
  | transportClose (i : Nat)
  | timerFire

/-- One step of the event system. `none` means the event cannot occur in
this state (a browser never fires open on a non-CONNECTING transport,
never fires close twice on the same transport, and a timer only expires
if one is pending). The service handlers are run exactly as installed by
`connect()`: onopen clears `isConnecting`; onerror clears `isConnecting`;
onclose clears `isConnecting` and schedules one `connect()` after 5000
milliseconds. -/
def stepEv (s : WebSocketService) : Event → Option WebSocketService
  | .callConnect => some (connect s)
  | .callDisconnect => some (disconnect s)
  | .transportOpen i =>
    if s.transports[i]? = some .CONNECTING then
      some { s with transports := s.transports.set i .OPEN, isConnecting := false }
    else none
  | .transportError i =>
    if s.transports[i]? = some .CONNECTING ∨ s.transports[i]? = some .OPEN then
      some { s with isConnecting := false }
    else none
  | .transportClose i =>
    if s.transports[i]? = some .CONNECTING ∨ s.transports[i]? = some .OPEN ∨
        s.transports[i]? = some .CLOSING then
      some
        { s with
          transports := s.transports.set i .CLOSED
          isConnecting := false
          pendingReconnects := s.pendingReconnects ++ [5000] }
    else none
  | .timerFire =>
    match s.pendingReconnects with
    | [] => none
    | _ :: rest => some (connect { s with pendingReconnects := rest })

/-- The states the process can actually be in: reachable from the
module-load state by any interleaving of calls and transport events. -/
inductive Reachable : WebSocketService → Prop
  | init : Reachable initService
  | step (s : WebSocketService) (e : Event) (s' : WebSocketService) :
      Reachable s → stepEv s e = some s' → Reachable s'

/-- Transport `i` is outstanding: its readyState is CONNECTING or OPEN. -/
def liveAt (s : WebSocketService) (i : Nat) : Prop :=
  s.transports[i]? = some ReadyState.CONNECTING ∨ s.transports[i]? = some ReadyState.OPEN

/-- The inductive invariant: every outstanding transport is the one the
service currently holds in `this.ws`. -/
def Inv (s : WebSocketService) : Prop :=
  ∀ i, liveAt s i → s.ws = some i

/-- The closing of a handle never yields an outstanding readyState. -/
theorem closeHandle_not_live (r : ReadyState) :
    closeHandle r ≠ ReadyState.CONNECTING ∧ closeHandle r ≠ ReadyState.OPEN := by
  cases r <;> simp [closeHandle]

/-- If some transport is outstanding, the guard of `connect()` is set. -/
theorem connectGuard_of_live (s : WebSocketService) (i : Nat)
    (h : Inv s) (hlive : liveAt s i) : connectGuard s = true := by
  have hws := h i hlive
  unfold connectGuard readyStateOf
  rw [hws]
  cases hlive with
  | inl hc => simp [Option.bind, hc]
  | inr ho => simp [Option.bind, ho]

/-- `connect()` preserves the one-outstanding-transport invariant. -/
theorem connect_Inv (s : WebSocketService) (h : Inv s) : Inv (connect s) := by
  unfold connect
  by_cases hg : connectGuard s = true
  · simpa [hg] using h
  · rw [if_neg hg]
    intro i hlive
    unfold liveAt at hlive
    rcases Nat.lt_trichotomy i s.transports.length with hlt | heq | hgt
    · exfalso
      rw [List.getElem?_append, if_pos hlt] at hlive
      exact hg (connectGuard_of_live s i h hlive)
    · simp [heq]
    · exfalso
      rw [List.getElem?_append, if_neg (by omega)] at hlive
      rw [List.getElem?_eq_none (by simp; omega)] at hlive
      rcases hlive with hc | hc <;> cases hc

/-- `disconnect()` preserves the one-outstanding-transport invariant. -/
theorem disconnect_Inv (s : WebSocketService) (h : Inv s) : Inv (disconnect s) := by
  cases hws : s.ws with
  | none =>
    unfold disconnect
    rw [hws]
    exact h
  | some j =>
    unfold disconnect
    rw [hws]
    show Inv
      { transports := s.transports.set j (closeHandle ((s.transports[j]?).getD .CLOSED)),
        ws := some j, isConnecting := s.isConnecting,
        pendingReconnects := s.pendingReconnects }
    intro i hlive
    unfold liveAt at hlive
    by_cases hij : j = i
    · subst hij
      rcases Nat.lt_or_ge j s.transports.length with hlt | hge
      · exfalso
        rw [List.getElem?_set_self hlt] at hlive
        rcases closeHandle_not_live ((s.transports[j]?).getD .CLOSED) with ⟨h1, h2⟩
        rcases hlive with hc | hc
        · exact h1 (Option.some.inj hc)
        · exact h2 (Option.some.inj hc)
      · exfalso
        rw [List.getElem?_eq_none (by simpa [List.length_set] using hge)] at hlive
        rcases hlive with hc | hc <;> cases hc
    · rw [List.getElem?_set_ne hij] at hlive
      have hsi := h i hlive
      rw [hws] at hsi
      exact hsi

/-- Every event step preserves the one-outstanding-transport invariant. -/
theorem stepEv_Inv (s : WebSocketService) (e : Event) (s' : WebSocketService)
    (h : Inv s) (hstep : stepEv s e = some s') : Inv s' := by
  cases e with
  | callConnect =>
    simp only [stepEv] at hstep
    cases Option.some.inj hstep
    exact connect_Inv s h
  | callDisconnect =>
    simp only [stepEv] at hstep
    cases Option.some.inj hstep
    exact disconnect_Inv s h
  | transportOpen i =>
    simp only [stepEv] at hstep
    split at hstep
    · next hcond =>
      cases Option.some.inj hstep
      intro j hlive
      unfold liveAt at hlive
      by_cases hij : i = j
      · subst hij
        exact h i (Or.inl hcond)
      · rw [List.getElem?_set_ne hij] at hlive
        exact h j hlive
    · cases hstep
  | transportError i =>
    simp only [stepEv] at hstep
    split at hstep
    · cases Option.some.inj hstep
      intro j hlive
      unfold liveAt at hlive
      exact h j hlive
    · cases hstep
  | transportClose i =>
    simp only [stepEv] at hstep
    split at hstep
    · cases Option.some.inj hstep
      intro j hlive
      unfold liveAt at hlive
      by_cases hij : i = j
      · subst hij
        rcases Nat.lt_or_ge i s.transports.length with hlt | hge
        · exfalso
          rw [List.getElem?_set_self hlt] at hlive
          rcases hlive with hc | hc <;> simp at hc
        · exfalso
          rw [List.getElem?_eq_none (by simpa [List.length_set] using hge)] at hlive
          rcases hlive with hc | hc <;> cases hc
      · rw [List.getElem?_set_ne hij] at hlive
        exact h j hlive
    · cases hstep
  | timerFire =>
    simp only [stepEv] at hstep
    split at hstep
    · cases hstep
    · next d rest hpend =>
      cases Option.some.inj hstep
      apply connect_Inv
      intro j hlive
      exact h j hlive

/-- Every reachable state satisfies the invariant. -/
theorem reachable_Inv (s : WebSocketService) (h : Reachable s) : Inv s := by
  induction h with
  | init =>
    intro i hlive
    unfold liveAt initService at hlive
    simp at hlive
  | step s e s' _ hstep ih => exact stepEv_Inv s e s' ih hstep

/-! ### Claim theorems -/

/-- C2: in every state reachable by any sequence of connect/disconnect
calls and transport open/close/error events, at most one transport handle
is in CONNECTING or OPEN state; and a `connect()` call made while the
held transport is CONNECTING or OPEN returns the state unchanged — zero
additional transport attempts, no other side effects. -/
theorem connect_single_transport (s : WebSocketService) (hs : Reachable s) :
    (∀ i j, liveAt s i → liveAt s j → i = j) ∧
    ((readyStateOf s = some ReadyState.CONNECTING ∨ readyStateOf s = some ReadyState.OPEN) →
      connect s = s) := by
  constructor
  · intro i j hi hj
    have h1 := reachable_Inv s hs i hi
    have h2 := reachable_Inv s hs j hj
    rw [h1] at h2
    exact Option.some.inj h2
  · intro hr
    unfold connect
    have hg : connectGuard s = true := by
      unfold connectGuard
      rcases hr with hx | hx <;> simp [hx]
    rw [if_pos hg]

/-- Witness for C2: after one `connect()` from the module-load state the
transport is CONNECTING, and a second `connect()` is a no-op. -/
theorem connect_single_transport_witness :
    connect (connect initService) = connect initService :=
  (connect_single_transport (connect initService)
      (Reachable.step initService Event.callConnect (connect initService)
        Reachable.init rfl)).2
    (Or.inl rfl)

/-- C3: every transport close event appends exactly one scheduled
reconnect (a renewed `connect()`) with the fixed 5000 ms delay, whether
the close was graceful, error-induced, or caused by `disconnect()`; an
explicit `disconnect()` moves an outstanding transport to CLOSING but
leaves every scheduled reconnect in place. -/
theorem close_schedules_one_reconnect :
    (∀ (s : WebSocketService) (i : Nat) (s' : WebSocketService),
        stepEv s (Event.transportClose i) = some s' →
        s'.pendingReconnects = s.pendingReconnects ++ [5000]) ∧
    (∀ s : WebSocketService, (disconnect s).pendingReconnects = s.pendingReconnects) ∧
    (∀ s : WebSocketService,
        (readyStateOf s = some ReadyState.CONNECTING ∨ readyStateOf s = some ReadyState.OPEN) →
        readyStateOf (disconnect s) = some ReadyState.CLOSING) := by
  refine ⟨?_, ?_, ?_⟩
  · intro s i s' hstep
    simp only [stepEv] at hstep
    split at hstep
    · cases Option.some.inj hstep
      rfl
    · cases hstep
  · intro s
    unfold disconnect
    cases hws : s.ws with
    | none => rfl
    | some j => rfl
  · intro s hr
    cases hws : s.ws with
    | none =>
      exfalso
      unfold readyStateOf at hr
      rw [hws] at hr
      rcases hr with hc | hc <;> cases hc
    | some j =>
      unfold readyStateOf at hr
      rw [hws] at hr
      simp only [Option.bind] at hr
      have hlt : j < s.transports.length := by
        by_contra hge
        push_neg at hge
        rw [List.getElem?_eq_none hge] at hr
        rcases hr with hc | hc <;> cases hc
      unfold disconnect
      rw [hws]
      show readyStateOf
        { transports := s.transports.set j (closeHandle ((s.transports[j]?).getD .CLOSED)),
          ws := some j, isConnecting := s.isConnecting,
          pendingReconnects := s.pendingReconnects } = some ReadyState.CLOSING
      unfold readyStateOf
      simp only [Option.bind]
      rw [List.getElem?_set_self (by simpa [List.length_set] using hlt)]
      rcases hr with hc | hc <;> rw [hc] <;> rfl

/-- A state with the single transport OPEN and no pending timer. -/
def serviceOpen : WebSocketService :=
  { transports := [ReadyState.OPEN], ws := some 0, isConnecting := false,
    pendingReconnects := [] }

/-- The state reached from `serviceOpen` by a transport close event. -/
def serviceClosed : WebSocketService :=
  { transports := [ReadyState.CLOSED], ws := some 0, isConnecting := false,
    pendingReconnects := [5000] }

/-- Witness for C3: a close event on the single OPEN transport schedules
exactly the one 5000 ms reconnect, and `disconnect()` on that state moves
the transport to CLOSING. -/
theorem close_schedules_one_reconnect_witness :
    serviceClosed.pendingReconnects = serviceOpen.pendingReconnects ++ [5000] ∧
    readyStateOf (disconnect serviceOpen) = some ReadyState.CLOSING :=
  ⟨close_schedules_one_reconnect.1 serviceOpen 0 serviceClosed rfl,
    close_schedules_one_reconnect.2.2 serviceOpen (Or.inr rfl)⟩

/-- C9 counterexample: "toString" is none of the three recognized
trigger tags, yet the lookup returns the truthy inherited base-prototype
member, not the default badge category. -/
theorem getBadgeClass_proto_counterexample :
    getBadgeClass "toString" = BadgeValue.protoMember "toString" ∧
    getBadgeClass "toString" ≠ BadgeValue.str "bg-secondary" := by
  refine ⟨by decide, ?_⟩
  decide

/-- C9 (amended): `getBadgeClass` sends the three known trigger tags to
three pairwise-distinct badge categories; every unrecognized tag that is
not a base-prototype property name gets the default category, never
failing; and an unrecognized tag that names an inherited base-prototype
member yields that truthy inherited value instead of the default. -/
theorem getBadgeClass_classifies :
    getBadgeClass "timer" = BadgeValue.str "bg-primary" ∧
    getBadgeClass "http" = BadgeValue.str "bg-success" ∧
    getBadgeClass "unity_table" = BadgeValue.str "bg-warning text-dark" ∧
    ("bg-primary" ≠ "bg-success" ∧ "bg-primary" ≠ "bg-warning text-dark" ∧
      "bg-success" ≠ "bg-warning text-dark" ∧ "bg-primary" ≠ "bg-secondary" ∧
      "bg-success" ≠ "bg-secondary" ∧ "bg-warning text-dark" ≠ "bg-secondary") ∧
    (∀ t : String, t ≠ "timer" → t ≠ "http" → t ≠ "unity_table" →
      t ∉ objectProtoKeys → getBadgeClass t = BadgeValue.str "bg-secondary") ∧
    (∀ t : String, t ≠ "timer" → t ≠ "http" → t ≠ "unity_table" →
      t ∈ objectProtoKeys → getBadgeClass t = BadgeValue.protoMember t) := by
  refine ⟨by decide, by decide, by decide, by decide, ?_, ?_⟩
  · intro t h1 h2 h3 h4
    simp [getBadgeClass, h1, h2, h3, h4]
  · intro t h1 h2 h3 h4
    simp [getBadgeClass, h1, h2, h3, h4]

/-- Witness for C9: an ordinary unrecognized tag gets the default
category, while the inherited property name "constructor" gets the
inherited member. -/
theorem getBadgeClass_classifies_witness :
    getBadgeClass "bogus" = BadgeValue.str "bg-secondary" ∧
    getBadgeClass "constructor" = BadgeValue.protoMember "constructor" :=
  ⟨getBadgeClass_classifies.2.2.2.2.1 "bogus"
      (by decide) (by decide) (by decide) (by decide),
    getBadgeClass_classifies.2.2.2.2.2 "constructor"
      (by decide) (by decide) (by decide) (by decide)⟩

/-- C5: the disposer removes exactly the handler it was created for — it
is gone afterwards, every other handler keeps its registration count —
and it is idempotent: running it twice (or after the handler is already
gone) leaves the list exactly as after the first run. -/
theorem removeHandler_disposer (handlers : List Nat) (handler : Nat) :
    removeHandler (removeHandler handlers handler) handler
        = removeHandler handlers handler ∧
    handler ∉ removeHandler handlers handler ∧
    (∀ g : Nat, g ≠ handler →
      (removeHandler handlers handler).count g = handlers.count g) := by
  refine ⟨?_, ?_, ?_⟩
  · unfold removeHandler
    rw [List.filter_filter]
    simp
  · unfold removeHandler
    intro hmem
    have := List.of_mem_filter hmem
    simp at this
  · intro g hg
    unfold removeHandler
    apply List.count_filter
    simp [hg]

/-- Witness for C5: disposing handler 2 on a concrete registration list. -/
theorem removeHandler_disposer_witness :
    removeHandler (removeHandler [1, 2, 3, 2] 2) 2 = removeHandler [1, 2, 3, 2] 2 ∧
    2 ∉ removeHandler [1, 2, 3, 2] 2 ∧
    (removeHandler [1, 2, 3, 2] 2).count 3 = ([1, 2, 3, 2] : List Nat).count 3 :=
  ⟨(removeHandler_disposer [1, 2, 3, 2] 2).1,
    (removeHandler_disposer [1, 2, 3, 2] 2).2.1,
    (removeHandler_disposer [1, 2, 3, 2] 2).2.2 3 (by decide)⟩

/-- C1 counterexample: with handlers 0 and 1 registered in that order and
handler 0 throwing on the payload, handler 1 — which comes after the
thrower in dispatch order — is never invoked: the `forEach` dispatch does
not isolate per-consumer failures. -/
theorem dispatch_throw_not_isolated :
    (fun (h : Nat) (_ : String) => h != 0) 0 "payload" = false ∧
    (dispatchRun (fun (h : Nat) (_ : String) => h != 0) [0, 1] "payload").1 = [0] ∧
    1 ∉ (dispatchRun (fun (h : Nat) (_ : String) => h != 0) [0, 1] "payload").1 := by
  refine ⟨rfl, rfl, ?_⟩
  decide

/-- C1 (amended): if a handler throws during dispatch, every handler
before it in dispatch order has already been invoked with the message and
the thrower itself is invoked, but the dispatch loop aborts: no handler
after the thrower is invoked for that message. -/
theorem dispatch_throw_aborts (beh : Nat → String → Bool) (pre post : List Nat)
    (h : Nat) (m : String)
    (hpre : ∀ g ∈ pre, beh g m = true) (hthrow : beh h m = false) :
    (dispatchRun beh (pre ++ h :: post) m).1 = pre ++ [h] ∧
    (dispatchRun beh (pre ++ h :: post) m).2 = false := by
  induction pre with
  | nil => simp [dispatchRun, hthrow]
  | cons g rest ih =>
    have hg : beh g m = true := hpre g (by simp)
    have hrest : ∀ x ∈ rest, beh x m = true := fun x hx => hpre x (by simp [hx])
    obtain ⟨ih1, ih2⟩ := ih hrest
    simp [dispatchRun, hg, ih1, ih2]

/-- Witness for the amended C1: handler 1 throws; handler 0 before it is
invoked, handler 2 after it is not. -/
theorem dispatch_throw_aborts_witness :
    (dispatchRun (fun (h : Nat) (_ : String) => h != 1) ([0] ++ 1 :: [2]) "payload").1
        = [0] ++ [1] ∧
    (dispatchRun (fun (h : Nat) (_ : String) => h != 1) ([0] ++ 1 :: [2]) "payload").2
        = false :=
  dispatch_throw_aborts (fun (h : Nat) (_ : String) => h != 1) [0] [2] 1 "payload"
    (by decide) (by decide)

/-- A dispatch in which no handler throws invokes every handler, in
registration order, and the loop completes. -/
theorem dispatchRun_all_ok (beh : Nat → String → Bool) (hs : List Nat) (m : String)
    (h : ∀ x ∈ hs, beh x m = true) : dispatchRun beh hs m = (hs, true) := by
  induction hs with
  | nil => rfl
  | cons g rest ih =>
    have hg := h g (by simp)
    have hrest : ∀ x ∈ rest, beh x m = true := fun x hx => h x (by simp [hx])
    simp [dispatchRun, hg, ih hrest]

/-- Deliveries recorded by a concatenation of traces. -/
theorem receivedBy_append (g : Nat) (t1 t2 : List (Nat × String)) :
    receivedBy g (t1 ++ t2) = receivedBy g t1 ++ receivedBy g t2 := by
  unfold receivedBy
  exact List.filterMap_append t1 t2 _

/-- One trace entry at a time. -/
theorem receivedBy_cons (g x : Nat) (m : String) (t : List (Nat × String)) :
    receivedBy g ((x, m) :: t)
      = if x = g then m :: receivedBy g t else receivedBy g t := by
  unfold receivedBy
  rw [List.filterMap_cons]
  by_cases hx : x = g <;> simp [hx]

/-- A handler absent from a dispatch block receives nothing from it. -/
theorem receivedBy_block_not_mem (g : Nat) (hs : List Nat) (m : String)
    (hmem : g ∉ hs) : receivedBy g (hs.map (fun h => (h, m))) = [] := by
  induction hs with
  | nil => rfl
  | cons x rest ih =>
    have hgx : x ≠ g := fun e => hmem (e ▸ List.mem_cons_self x rest)
    rw [List.map_cons, receivedBy_cons, if_neg hgx]
    exact ih (fun hr => hmem (List.mem_cons_of_mem x hr))

/-- A handler present once in a dispatch block receives the payload
exactly once from it. -/
theorem receivedBy_block (g : Nat) (hs : List Nat) (m : String)
    (hnd : hs.Nodup) (hmem : g ∈ hs) :
    receivedBy g (hs.map (fun h => (h, m))) = [m] := by
  induction hs with
  | nil => cases hmem
  | cons x rest ih =>
    rcases List.nodup_cons.mp hnd with ⟨hx, hrest⟩
    rw [List.map_cons, receivedBy_cons]
    by_cases hgx : x = g
    · subst hgx
      rw [if_pos rfl, receivedBy_block_not_mem x rest m hx]
    · rw [if_neg hgx]
      exact ih hrest (by
        rcases List.mem_cons.mp hmem with he | hr
        · exact absurd he.symm hgx
        · exact hr)

/-- Over a whole run with no throwing handler, each registered handler
receives exactly the arriving payloads, in arrival order. -/
theorem receivedBy_trace (beh : Nat → String → Bool) (hs : List Nat) (g : Nat)
    (msgs : List String) (hnd : hs.Nodup) (hmem : g ∈ hs)
    (hok : ∀ h ∈ hs, ∀ m ∈ msgs, beh h m = true) :
    receivedBy g (dispatchTrace beh hs msgs) = msgs := by
  induction msgs with
  | nil => rfl
  | cons m ms ih =>
    unfold dispatchTrace
    rw [List.map_cons, List.flatten_cons, receivedBy_append]
    rw [dispatchRun_all_ok beh hs m (fun x hx => hok x hx m (by simp))]
    rw [receivedBy_block g hs m hnd hmem]
    have ihh := ih (fun h hh m' hm' => hok h hh m' (by simp [hm']))
    unfold dispatchTrace at ihh
    rw [ihh]
    rfl

/-- C4 counterexample: consumer 1 is registered when payload "m" is
dispatched, yet — because consumer 0, earlier in dispatch order, throws —
consumer 1 does not receive the payload, so delivery to every
currently-registered consumer is not unconditional. -/
theorem dispatch_fanout_counterexample :
    (1 : Nat) ∈ ([0, 1] : List Nat) ∧
    receivedBy 1 (dispatchTrace (fun (h : Nat) (_ : String) => h != 0) [0, 1] ["m"])
      ≠ ["m"] := by
  refine ⟨by decide, ?_⟩
  decide

/-- C4 (amended): provided no handler throws, with N distinct consumers
registered every payload is delivered to every currently-registered
consumer exactly once, in the exact order the transport produced the
payloads; and after one consumer is unregistered mid-stream, each
remaining consumer still receives the later payloads, so over the whole
run it receives exactly the full payload sequence in order. -/
theorem dispatch_fanout (beh : Nat → String → Bool) (hs : List Nat)
    (h0 g : Nat) (msgs1 msgs2 : List String)
    (hnd : hs.Nodup)
    (hok : ∀ h ∈ hs, ∀ m : String, beh h m = true)
    (hg : g ∈ hs) (hne : g ≠ h0) :
    (∀ h ∈ hs, receivedBy h (dispatchTrace beh hs msgs1) = msgs1) ∧
    receivedBy g (dispatchTrace beh hs msgs1
        ++ dispatchTrace beh (removeHandler hs h0) msgs2) = msgs1 ++ msgs2 := by
  constructor
  · intro h hh
    exact receivedBy_trace beh hs h msgs1 hnd hh (fun x hx m _ => hok x hx m)
  · rw [receivedBy_append]
    rw [receivedBy_trace beh hs g msgs1 hnd hg (fun x hx m _ => hok x hx m)]
    have hnd2 : (removeHandler hs h0).Nodup := hnd.filter _
    have hg2 : g ∈ removeHandler hs h0 := by
      unfold removeHandler
      exact List.mem_filter.mpr ⟨hg, by simp [hne]⟩
    rw [receivedBy_trace beh (removeHandler hs h0) g msgs2 hnd2 hg2
      (fun x hx m _ => hok x (List.mem_of_mem_filter hx) m)]

/-- Witness for C4: three consumers, two payloads, consumer 2 then
unregistered, one more payload. -/
theorem dispatch_fanout_witness :
    (∀ h ∈ [1, 2, 3],
      receivedBy h (dispatchTrace (fun _ _ => true) [1, 2, 3] ["a", "b"]) = ["a", "b"]) ∧
    receivedBy 1 (dispatchTrace (fun _ _ => true) [1, 2, 3] ["a", "b"]
        ++ dispatchTrace (fun _ _ => true) (removeHandler [1, 2, 3] 2) ["c"])
      = ["a", "b"] ++ ["c"] :=
  dispatch_fanout (fun _ _ => true) [1, 2, 3] 2 1 ["a", "b"] ["c"]
    (by decide) (fun _ _ _ => rfl) (by decide) (by decide)

/-! ### Helper lemmas for the cron formatter -/

/-- Off the exact-match table, `formatCronSchedule` is the custom-pattern
section. -/
theorem formatCronSchedule_eq_custom (e : String) (hex : inExactTable e = false) :
    formatCronSchedule e = formatCustom e := by
  have h1 : e ≠ "*/1 * * * *" := by
    intro he; rw [he] at hex; exact absurd hex (by decide)
  have h2 : e ≠ "0/5 * * * *" := by
    intro he; rw [he] at hex; exact absurd hex (by decide)
  have h3 : e ≠ "0/15 * * * *" := by
    intro he; rw [he] at hex; exact absurd hex (by decide)
  have h4 : e ≠ "0/30 * * * *" := by
    intro he; rw [he] at hex; exact absurd hex (by decide)
  have h5 : e ≠ "0 * * * *" := by
    intro he; rw [he] at hex; exact absurd hex (by decide)
  have h6 : e ≠ "0 0 * * *" := by
    intro he; rw [he] at hex; exact absurd hex (by decide)
  have h7 : e ≠ "0 12 * * *" := by
    intro he; rw [he] at hex; exact absurd hex (by decide)
  unfold formatCronSchedule
  rw [if_neg h1, if_neg h2, if_neg h3, if_neg h4, if_neg h5, if_neg h6, if_neg h7]

/-- Reduction of the custom-pattern section on a five-field split. -/
theorem formatCustom_five (e minute hour a b c : String)
    (hsplit : splitFields e.data = [minute, hour, a, b, c]) :
    formatCustom e =
      if startsWithInterval minute then
        "Every " ++ intervalSuffix minute ++ " minute"
          ++ (if intervalSuffix minute = "1" then "" else "s")
      else if isNumeric minute && isNumeric hour then
        "Every day at "
          ++ natToStr (if parseIntNat hour % 12 = 0 then 12 else parseIntNat hour % 12)
          ++ ":" ++ padStart2 minute ++ " "
          ++ (if parseIntNat hour ≥ 12 then "PM" else "AM")
      else e := by
  unfold formatCustom
  rw [hsplit]

/-- A split that does not have exactly five fields falls through to the
passthrough branch. -/
theorem formatCustom_not_five (e : String)
    (hlen : (splitFields e.data).length ≠ 5) : formatCustom e = e := by
  unfold formatCustom
  cases hl : splitFields e.data with
  | nil => rfl
  | cons x1 t1 =>
    cases t1 with
    | nil => rfl
    | cons x2 t2 =>
      cases t2 with
      | nil => rfl
      | cons x3 t3 =>
        cases t3 with
        | nil => rfl
        | cons x4 t4 =>
          cases t4 with
          | nil => rfl
          | cons x5 t5 =>
            cases t5 with
            | nil =>
              exfalso
              rw [hl] at hlen
              simp at hlen
            | cons y t6 => rfl

/-- The star-slash test succeeds on any string that extends "*/". -/
theorem startsWithInterval_append (s : String) :
    startsWithInterval ("*/" ++ s) = true := by
  cases s with
  | mk l => rfl

/-- Dropping the first two characters of "*/" followed by a string gives
back that string. -/
theorem intervalSuffix_append (s : String) : intervalSuffix ("*/" ++ s) = s := by
  cases s with
  | mk l => rfl

/-- A purely numeric field never starts with the star-slash prefix. -/
theorem isNumeric_not_interval (s : String) (h : isNumeric s = true) :
    startsWithInterval s = false := by
  unfold isNumeric at h
  rw [Bool.and_eq_true] at h
  obtain ⟨-, hall⟩ := h
  unfold startsWithInterval
  cases hd : s.data with
  | nil => rfl
  | cons c1 rest =>
    cases rest with
    | nil => rfl
    | cons c2 rest2 =>
      rw [hd] at hall
      simp only [List.all_cons, Bool.and_eq_true] at hall
      obtain ⟨hc1, -⟩ := hall
      by_cases hc : c1 = '*'
      · subst hc
        exact absurd hc1 (by decide)
      · simp [hc]

/-- The digit rendering is never the empty character list. -/
theorem natDigitsAux_ne_nil (fuel n : Nat) (h : 1 ≤ fuel) :
    natDigitsAux fuel n ≠ [] := by
  cases fuel with
  | zero => omega
  | succ f =>
    unfold natDigitsAux
    by_cases hn : n < 10
    · rw [if_pos hn]; simp
    · rw [if_neg hn]; simp

/-- The decimal rendering of `N` is the string "1" exactly when `N` is
the number one. -/
theorem natToStr_eq_one_iff (N : Nat) : natToStr N = "1" ↔ N = 1 := by
  constructor
  · intro h
    by_cases hlt : N < 10
    · interval_cases N <;> revert h <;> decide
    · exfalso
      have hdata : natDigitsAux (N + 1) N = ['1'] := congrArg String.data h
      have hstep : natDigitsAux (N + 1) N
          = if N < 10 then [Char.ofNat (48 + N)]
            else natDigitsAux N (N / 10) ++ [Char.ofNat (48 + N % 10)] := rfl
      rw [hstep, if_neg hlt] at hdata
      have hne := natDigitsAux_ne_nil N (N / 10) (by omega)
      have hlen := congrArg List.length hdata
      rw [List.length_append] at hlen
      simp only [List.length_cons, List.length_nil] at hlen
      have hzero : (natDigitsAux N (N / 10)).length = 0 := by omega
      exact hne (List.length_eq_zero.mp hzero)
  · intro h
    subst h
    rfl

/-- Shared reduction: off the table, a five-field expression whose minute
field extends "*/" renders through the interval rule with the raw suffix
embedded verbatim. -/
theorem formatCustom_interval (e s h a b c : String)
    (hsplit : splitFields e.data = ["*/" ++ s, h, a, b, c]) :
    formatCustom e
      = "Every " ++ s ++ " minute" ++ (if s = "1" then "" else "s") := by
  rw [formatCustom_five e ("*/" ++ s) h a b c hsplit]
  rw [startsWithInterval_append, intervalSuffix_append, if_pos rfl]

/-- C6: off the exact-match table, a five-field expression whose minute
field is "*/" followed by the decimal rendering of `N` formats through
the interval rule as "Every N minute" or "Every N minutes", singular
exactly when `N` equals one; in particular the expression with minute
field "*/7" gives "Every 7 minutes". -/
theorem formatCronSchedule_interval_rule :
    (∀ (N : Nat) (e h a b c : String), inExactTable e = false →
      splitFields e.data = ["*/" ++ natToStr N, h, a, b, c] →
      formatCronSchedule e
        = "Every " ++ natToStr N ++ " minute" ++ (if N = 1 then "" else "s")) ∧
    formatCronSchedule "*/7 * * * *" = "Every 7 minutes" := by
  constructor
  · intro N e h a b c hex hsplit
    rw [formatCronSchedule_eq_custom e hex,
      formatCustom_interval e (natToStr N) h a b c hsplit]
    by_cases hN : N = 1
    · rw [if_pos ((natToStr_eq_one_iff N).mpr hN), if_pos hN]
    · rw [if_neg (fun hh => hN ((natToStr_eq_one_iff N).mp hh)), if_neg hN]
  · decide

/-- Witness for C6: the interval rule at N equal to one, on an expression
outside the exact-match table, gives the singular form. -/
theorem formatCronSchedule_interval_rule_witness :
    formatCronSchedule "*/1 0 * * *" = "Every 1 minute" :=
  formatCronSchedule_interval_rule.1 1 "*/1 0 * * *" "0" "*" "*" "*"
    (by decide) (by decide)

/-- C10: the text after "*/" in the minute field is not validated as a
number: the raw suffix is embedded verbatim in the result, and the
singular form is chosen by string equality of the suffix with "1"; in
particular a non-numeric suffix "x" gives "Every x minutes" and the
suffix "01" gives "Every 01 minutes". -/
theorem formatCronSchedule_interval_raw :
    (∀ (e suf h a b c : String), inExactTable e = false →
      splitFields e.data = ["*/" ++ suf, h, a, b, c] →
      formatCronSchedule e
        = "Every " ++ suf ++ " minute" ++ (if suf = "1" then "" else "s")) ∧
    formatCronSchedule "*/x * * * *" = "Every x minutes" ∧
    formatCronSchedule "*/01 * * * *" = "Every 01 minutes" := by
  refine ⟨?_, by decide, by decide⟩
  intro e suf h a b c hex hsplit
  rw [formatCronSchedule_eq_custom e hex,
    formatCustom_interval e suf h a b c hsplit]

/-- Witness for C10: the raw-suffix interval rule applied to the
non-numeric suffix "x". -/
theorem formatCronSchedule_interval_raw_witness :
    formatCronSchedule "*/x * * * *"
      = "Every " ++ "x" ++ " minute" ++ (if "x" = "1" then "" else "s") :=
  formatCronSchedule_interval_raw.1 "*/x * * * *" "x" "*" "*" "*" "*"
    (by decide) (by decide)

/-- C7: off the exact-match table, a five-field expression whose minute
field does not trigger the interval rule and whose minute and hour
fields are purely numeric renders as "Every day at H:MM AM" or
"Every day at H:MM PM": the hour modulo twelve with zero mapped to
twelve, AM exactly for hour values below twelve, and the minute
zero-padded to two digits; in particular "30 14 * * *" gives
"Every day at 2:30 PM". -/
theorem formatCronSchedule_time_rule :
    (∀ (e minute hour a b c : String), inExactTable e = false →
      splitFields e.data = [minute, hour, a, b, c] →
      startsWithInterval minute = false →
      isNumeric minute = true → isNumeric hour = true →
      formatCronSchedule e =
        "Every day at "
          ++ natToStr (if parseIntNat hour % 12 = 0 then 12 else parseIntNat hour % 12)
          ++ ":" ++ padStart2 minute ++ " "
          ++ (if parseIntNat hour < 12 then "AM" else "PM")) ∧
    formatCronSchedule "30 14 * * *" = "Every day at 2:30 PM" := by
  constructor
  · intro e minute hour a b c hex hsplit hsw hm hh
    rw [formatCronSchedule_eq_custom e hex,
      formatCustom_five e minute hour a b c hsplit]
    rw [hsw, hm, hh]
    simp only [Bool.false_eq_true, if_false, Bool.and_self, if_true]
    have hampm : (if parseIntNat hour ≥ 12 then ("PM" : String) else "AM")
        = if parseIntNat hour < 12 then "AM" else "PM" := by
      by_cases hlt : parseIntNat hour < 12
      · rw [if_pos hlt, if_neg (by omega)]
      · rw [if_neg hlt, if_pos (by omega)]
    rw [hampm]
  · decide

/-- Witness for C7: the specific-time rule at minute 30, hour 14. -/
theorem formatCronSchedule_time_rule_witness :
    formatCronSchedule "30 14 * * *" = "Every day at "
      ++ natToStr (if parseIntNat "14" % 12 = 0 then 12 else parseIntNat "14" % 12)
      ++ ":" ++ padStart2 "30" ++ " "
      ++ (if parseIntNat "14" < 12 then "AM" else "PM") :=
  formatCronSchedule_time_rule.1 "30 14 * * *" "30" "14" "*" "*" "*"
    (by decide) (by decide) (by decide) (by decide) (by decide)

/-- C8: an input with no exact-table match passes through unchanged
whenever its split does not have exactly five fields, and likewise
whenever the five fields match neither the interval rule nor the numeric
minute-and-hour rule; malformed input is never rejected or altered, as on
"not a cron". -/
theorem formatCronSchedule_passthrough :
    (∀ e : String, inExactTable e = false →
      (splitFields e.data).length ≠ 5 → formatCronSchedule e = e) ∧
    (∀ (e minute hour a b c : String), inExactTable e = false →
      splitFields e.data = [minute, hour, a, b, c] →
      startsWithInterval minute = false →
      (isNumeric minute && isNumeric hour) = false →
      formatCronSchedule e = e) ∧
    formatCronSchedule "not a cron" = "not a cron" := by
  refine ⟨?_, ?_, by decide⟩
  · intro e hex hlen
    rw [formatCronSchedule_eq_custom e hex]
    exact formatCustom_not_five e hlen
  · intro e minute hour a b c hex hsplit hsw hnum
    rw [formatCronSchedule_eq_custom e hex,
      formatCustom_five e minute hour a b c hsplit]
    rw [hsw, hnum]
    simp

/-- Witness for C8: three fields on "not a cron", and five fields with no
matching rule on an all-star expression. -/
theorem formatCronSchedule_passthrough_witness :
    formatCronSchedule "not a cron" = "not a cron" ∧
    formatCronSchedule "* * * * 5" = "* * * * 5" :=
  ⟨formatCronSchedule_passthrough.1 "not a cron" (by decide) (by decide),
    formatCronSchedule_passthrough.2.1 "* * * * 5" "*" "*" "*" "*" "5"
      (by decide) (by decide) (by decide) (by decide)⟩

end Lakehouse
